import Mathlib

/-!
Shallow embedding of the boolean-expression compiler front end
(tokenizer, recursive-descent parser, constant-folding optimizer,
tree-walking evaluator, JSON serialization), translated from the
Python sources in `src/`, together with theorems settling the
specification claims.
-/

set_option maxRecDepth 10000

deriving instance DecidableEq for Except

/-- Source location attached to tokens and errors (errors.py, SourceLocation):
1-indexed line and column, 0-indexed offset. -/
structure SourceLocation where
  line : Nat
  column : Nat
  offset : Nat
deriving DecidableEq, Repr

/-- AST of the logic language (ast.py): five node variants
Var, BoolLit, Not, And, Or. -/
inductive Expr where
  | Var (name : String)
  | BoolLit (value : Bool)
  | Not (expr : Expr)
  | And (left : Expr) (right : Expr)
  | Or (left : Expr) (right : Expr)
deriving DecidableEq, Repr

namespace Expr

/-- Structural test used by the optimizer's rules: is the node a BoolLit?
(`isinstance(x, ast.BoolLit)` in optimizer.py). -/
def isBoolLit : Expr → Bool
  | .BoolLit _ => true
  | _ => false

/-- Structural test used by the optimizer's double-negation rule: is the node
a Not? (`isinstance(operand, ast.Not)` in optimizer.py). -/
def isNot : Expr → Bool
  | .Not _ => true
  | _ => false

end Expr

/-- Optimizer (optimizer.py, Optimizer visitor / optimize): a single post-order
pass applying constant folding and double-negation elimination. The source's
`operand is not expr.expr` node-reuse checks are object-identity shortcuts
that always return a structurally equal tree, so the embedding rebuilds
unconditionally. -/
def optimize : Expr → Expr
  | .Var n => .Var n
  | .BoolLit v => .BoolLit v
  | .Not e =>
    let operand := optimize e
    match operand with
    | .BoolLit true => .BoolLit false
    | .BoolLit false => .BoolLit true
    | .Not x => x
    | _ => .Not operand
  | .And l r =>
    let left := optimize l
    let right := optimize r
    match left, right with
    | .BoolLit true, _ => right
    | .BoolLit false, _ => .BoolLit false
    | _, .BoolLit true => left
    | _, .BoolLit false => .BoolLit false
    | _, _ => .And left right
  | .Or l r =>
    let left := optimize l
    let right := optimize r
    match left, right with
    | .BoolLit true, _ => .BoolLit true
    | .BoolLit false, _ => right
    | _, .BoolLit true => .BoolLit true
    | _, .BoolLit false => left
    | _, _ => .Or left right

/-- One inner DP step of levenshtein_distance (evaluator.py): walk the
remaining characters of s2 together with the tail of the previous row,
carrying the previously appended current-row value (`deletions` source).
`prest.headD 0` is `previous_row[j + 1]`; it is always present because the
previous row has length `len s2 + 1`. -/
def levInner (c1 : Char) : List Char → List Nat → Nat → List Nat
  | [], _, _ => []
  | _ :: _, [], _ => []
  | c2 :: s2rest, p0 :: prest, dleft =>
    let ins := prest.headD 0 + 1
    let del := dleft + 1
    let sub := p0 + (if c1 = c2 then 0 else 1)
    let v := min ins (min del sub)
    v :: levInner c1 s2rest prest v

/-- Outer DP loop of levenshtein_distance (evaluator.py): one row per
character of s1, `i` the enumerate index; each row starts with `i + 1`. -/
def levLoop (s2 : List Char) : List Char → List Nat → Nat → List Nat
  | [], prev, _ => prev
  | c1 :: s1rest, prev, i =>
    let cur := (i + 1) :: levInner c1 s2 prev (i + 1)
    levLoop s2 s1rest cur (i + 1)

/-- Row-based DP of levenshtein_distance (evaluator.py) for the case
`len s1 >= len s2`; returns the last entry of the final row. -/
def levRows (s1 s2 : List Char) : Nat :=
  if s2.length = 0 then s1.length
  else (levLoop s2 s1 (List.range (s2.length + 1)) 0).getLastD 0

/-- levenshtein_distance (evaluator.py): the source's single swap-recursion
(`if len(s1) < len(s2): return levenshtein_distance(s2, s1)`) is unfolded
into a conditional on which argument drives the DP rows. -/
def levenshtein_distance (s1 s2 : String) : Nat :=
  if s1.length < s2.length then levRows s2.data s1.data
  else levRows s1.data s2.data

/-- Python's `str.lower()` as used by find_similar_variables: character-wise
lower-casing (the inputs of interest are ASCII). -/
def strLower (s : String) : String :=
  ⟨s.data.map Char.toLower⟩

/-- Python's lexicographic string comparison `<=` on code points, used by
the tuple order of the suggestion sort. -/
def charListLe : List Char → List Char → Bool
  | [], _ => true
  | _ :: _, [] => false
  | a :: as, b :: bs => if a = b then charListLe as bs else decide (a < b)

/-- Comparison key used by find_similar_variables' `candidates.sort`
(evaluator.py): ascending lexicographic order on (distance, name),
Python's tuple comparison. -/
def pairLe (a b : Nat × String) : Bool :=
  a.1 < b.1 || (a.1 = b.1 && charListLe a.2.data b.2.data)

/-- Propositional form of pairLe, the sort relation of
find_similar_variables. -/
def pairLeR (a b : Nat × String) : Prop := pairLe a b = true

instance : DecidableRel pairLeR := fun a b => inferInstanceAs (Decidable (_ = true))

/-- find_similar_variables (evaluator.py): collect `(distance, var)` pairs
with case-insensitive Levenshtein distance at most `maxDist` in environment
order, sort ascending by (distance, name), return the names. The source's
append-inside-loop is the map-then-filter below (same order); Python's
stable `list.sort` keyed on the whole pair coincides with any sort that is
ascending under the total antisymmetric order pairLe, here insertion
sort. -/
def find_similar_variables (variable_name : String) (available_vars : List String)
    (maxDist : Nat := 3) : List String :=
  let candidates :=
    (available_vars.map
      (fun v => (levenshtein_distance (strLower variable_name) (strLower v), v))).filter
      (fun p => p.1 ≤ maxDist)
  (List.insertionSort pairLeR candidates).map Prod.snd

/-- Evaluation error (errors.py, UnknownVariableError): the only failure the
evaluator raises on boolean environments; carries the missing name and the
ranked suggestion list. -/
structure UnknownVariableError where
  variable_name : String
  suggestions : List String
deriving DecidableEq, Repr

/-- Environment: variable name to boolean, name lookup case-sensitive,
insertion-ordered like a Python dict (evaluator.py). -/
abbrev Env := List (String × Bool)

/-- Evaluator (evaluator.py, Evaluator visitor / evaluate): tree walk; a
variable missing from the environment fails with UnknownVariableError
carrying suggestions; And/Or evaluate both operands (no short-circuit). -/
def evaluate : Expr → Env → Except UnknownVariableError Bool
  | .Var name, env =>
    match env.lookup name with
    | some value => .ok value
    | none =>
      .error ⟨name, find_similar_variables name (env.map Prod.fst)⟩
  | .BoolLit v, _ => .ok v
  | .Not e, env =>
    match evaluate e env with
    | .error er => .error er
    | .ok operand => .ok (!operand)
  | .And l r, env =>
    match evaluate l env, evaluate r env with
    | .error er, _ => .error er
    | .ok _, .error er => .error er
    | .ok left, .ok right => .ok (left && right)
  | .Or l r, env =>
    match evaluate l env, evaluate r env with
    | .error er, _ => .error er
    | .ok _, .error er => .error er
    | .ok left, .ok right => .ok (left || right)

/-- Free variables of an expression (the names the evaluator looks up);
derived notion used to state the optimizer-soundness claim. -/
def freeVars : Expr → List String
  | .Var n => [n]
  | .BoolLit _ => []
  | .Not e => freeVars e
  | .And l r => freeVars l ++ freeVars r
  | .Or l r => freeVars l ++ freeVars r

/-- Token types of the language (tokenizer.py, TokenType). -/
inductive TokenType where
  | IDENT
  | BOOL
  | AND
  | OR
  | NOT
  | LPAREN
  | RPAREN
  | EOF
deriving DecidableEq, Repr

/-- Token with its position in the source (tokenizer.py, Token). -/
structure Token where
  type : TokenType
  lexeme : String
  location : SourceLocation
deriving DecidableEq, Repr

/-- Lexical error (errors.py, LexicalError): the offending character and its
location; the source text carried by the Python error for display is
omitted from the embedding. -/
structure LexicalError where
  ch : Char
  location : SourceLocation
deriving DecidableEq, Repr

/-- Whitespace class of Python's regex `\s` restricted to ASCII, used by
the tokenizer's `_skip_whitespace`. -/
def isPyWs (c : Char) : Bool :=
  c = ' ' || c = '\t' || c = '\n' || c = '\r' || c = '\x0b' || c = '\x0c'

/-- Cursor advance over one character (tokenizer.py, Lexer._advance):
newline bumps the line and resets the column, anything else bumps the
column; the offset always advances. -/
def advLC (c : Char) (lc : SourceLocation) : SourceLocation :=
  if c = '\n' then ⟨lc.line + 1, 1, lc.offset + 1⟩
  else ⟨lc.line, lc.column + 1, lc.offset + 1⟩

/-- Cursor advance over a run of characters (tokenizer.py `_advance(count)`
over the matched lexeme). -/
def advMany (cs : List Char) (lc : SourceLocation) : SourceLocation :=
  cs.foldl (fun l c => advLC c l) lc

/-- The `_read_token` skip loop (tokenizer.py): alternately skip whitespace
runs and, when `ec` (enable_comments) is set, comments from `#` up to the
end of the line. The source's regex loop is fused into one character-wise
scan with an in-comment flag; a comment's terminating newline is consumed
by the whitespace skip exactly as in the source. -/
def skipWsC (ec : Bool) : Bool → List Char → SourceLocation → List Char × SourceLocation
  | _, [], lc => ([], lc)
  | inComment, c :: rest, lc =>
    if inComment then
      if c = '\n' then skipWsC ec false rest (advLC c lc)
      else skipWsC ec true rest (advLC c lc)
    else if isPyWs c then skipWsC ec false rest (advLC c lc)
    else if ec && c = '#' then skipWsC ec true rest (advLC c lc)
    else (c :: rest, lc)

/-- Keyword table (tokenizer.py, _KEYWORDS): case-insensitive AND, OR, NOT,
TRUE, FALSE; looked up on the upper-cased lexeme. -/
def keywordType (u : String) : Option TokenType :=
  if u = "AND" then some .AND
  else if u = "OR" then some .OR
  else if u = "NOT" then some .NOT
  else if u = "TRUE" then some .BOOL
  else if u = "FALSE" then some .BOOL
  else none

/-- First character of the identifier regex `[A-Za-z_][A-Za-z0-9_]*`. -/
def isIdentStart (c : Char) : Bool := c.isAlpha || c = '_'

/-- Continuation characters of the identifier regex. -/
def isIdentCont (c : Char) : Bool := c.isAlphanum || c = '_'

/-- Upper-casing of a lexeme (Python `lexeme.upper()`, ASCII). -/
def strUpper (s : String) : String :=
  ⟨s.data.map Char.toUpper⟩

/-- Lexer._read_token (tokenizer.py): skip whitespace and comments, then
emit EOF at end of input, a parenthesis token, a keyword/identifier token
(keywords canonicalized to upper case, identifiers keeping their case), or
fail on any other character. Returns the token together with the remaining
characters and the advanced cursor. -/
def readToken (ec : Bool) (rem : List Char) (lc : SourceLocation) :
    Except LexicalError (Token × List Char × SourceLocation) :=
  let (rem', lc') := skipWsC ec false rem lc
  match rem' with
  | [] => .ok (⟨.EOF, "", lc'⟩, [], lc')
  | c :: rest =>
    if c = '(' then .ok (⟨.LPAREN, "(", lc'⟩, rest, advLC c lc')
    else if c = ')' then .ok (⟨.RPAREN, ")", lc'⟩, rest, advLC c lc')
    else if isIdentStart c then
      let lexChars := c :: rest.takeWhile isIdentCont
      let restAfter := rest.dropWhile isIdentCont
      let upper := strUpper ⟨lexChars⟩
      match keywordType upper with
      | some t => .ok (⟨t, upper, lc'⟩, restAfter, advMany lexChars lc')
      | none => .ok (⟨.IDENT, ⟨lexChars⟩, lc'⟩, restAfter, advMany lexChars lc')
    else .error ⟨c, lc'⟩

/-- Lexer.tokenize's collection loop (tokenizer.py): read tokens until EOF.
The fuel argument makes the recursion structural; every non-EOF token
consumes at least one character, so fuel exceeding the number of remaining
characters never runs out (tokenizeLoop_fuel_irrelevant below), and the
fuel-exhaustion branch, which reports a sentinel lexical error, is
unreachable from tokenize. -/
def tokenizeLoop (ec : Bool) : Nat → List Char → SourceLocation → Except LexicalError (List Token)
  | 0, _, _ => .error ⟨'\x00', ⟨0, 0, 0⟩⟩
  | n + 1, rem, lc =>
    match readToken ec rem lc with
    | .error e => .error e
    | .ok (tok, rem', lc') =>
      if tok.type = .EOF then .ok [tok]
      else
        match tokenizeLoop ec n rem' lc' with
        | .error e => .error e
        | .ok toks => .ok (tok :: toks)

/-- tokenize (tokenizer.py): scan the whole source starting at line 1,
column 1, offset 0. -/
def tokenize (source : String) (ec : Bool := true) : Except LexicalError (List Token) :=
  tokenizeLoop ec (source.data.length + 1) source.data ⟨1, 1, 0⟩

/-- JSON values as produced and consumed by to_json / from_json (ast.py):
objects with string keys (insertion-ordered), strings, booleans. -/
inductive Json where
  | str (s : String)
  | bool (b : Bool)
  | obj (fields : List (String × Json))

/-- to_json (ast.py, one method per node class): tagged-union serialization,
`{"type": <VariantName>, ...fields}` with children serialized recursively. -/
def to_json : Expr → Json
  | .Var n => .obj [("type", .str "Var"), ("name", .str n)]
  | .BoolLit v => .obj [("type", .str "BoolLit"), ("value", .bool v)]
  | .Not e => .obj [("type", .str "Not"), ("expr", to_json e)]
  | .And l r => .obj [("type", .str "And"), ("left", to_json l), ("right", to_json r)]
  | .Or l r => .obj [("type", .str "Or"), ("left", to_json l), ("right", to_json r)]

/-- Field access `data["k"]` on a JSON object (ast.py from_json): first
binding for the key, none when the key is absent (Python's KeyError). -/
def getField (fields : List (String × Json)) (key : String) : Option Json :=
  fields.lookup key

/-- Size bound for the recursive calls of from_json: a value found in an
object's field list is structurally smaller than the list. -/
theorem sizeOf_of_lookup {fields : List (String × Json)} {k : String} {j : Json}
    (h : fields.lookup k = some j) : sizeOf j < sizeOf fields := by
  induction fields with
  | nil => simp [List.lookup] at h
  | cons p rest ih =>
    obtain ⟨a, b⟩ := p
    rw [List.lookup] at h
    by_cases hk : (k == a) = true
    · simp [hk] at h
      subst h
      simp
      omega
    · simp [hk] at h
      have := ih h
      simp
      omega

/-- from_json (ast.py): dispatch on the "type" tag; unknown tag raises
ValueError and a missing field raises KeyError, both modelled as `none`.
The source performs no runtime type check on a present field's value, but
the typed AST forces "name" to decode a string and "value" a boolean; a
JSON string input (re-parsed by the source through json.loads) is outside
this embedding and also maps to `none`. Both deviations are off the
serializer's image and off the failure cases the claims quantify over. -/
def from_json : Json → Option Expr
  | .obj fields =>
    match getField fields "type" with
    | some (.str "Var") =>
      match getField fields "name" with
      | some (.str n) => some (.Var n)
      | _ => none
    | some (.str "BoolLit") =>
      match getField fields "value" with
      | some (.bool v) => some (.BoolLit v)
      | _ => none
    | some (.str "Not") =>
      match h : getField fields "expr" with
      | some j => (from_json j).map .Not
      | none => none
    | some (.str "And") =>
      match h1 : getField fields "left", h2 : getField fields "right" with
      | some jl, some jr =>
        match from_json jl, from_json jr with
        | some l, some r => some (.And l r)
        | _, _ => none
      | _, _ => none
    | some (.str "Or") =>
      match h1 : getField fields "left", h2 : getField fields "right" with
      | some jl, some jr =>
        match from_json jl, from_json jr with
        | some l, some r => some (.Or l r)
        | _, _ => none
      | _, _ => none
    | _ => none
  | _ => none
termination_by j => sizeOf j
decreasing_by
  all_goals simp only [Json.obj.sizeOf_spec]
  · have := sizeOf_of_lookup (show _ from h)
    omega
  · have := sizeOf_of_lookup (show _ from h1)
    omega
  · have := sizeOf_of_lookup (show _ from h2)
    omega
  · have := sizeOf_of_lookup (show _ from h1)
    omega
  · have := sizeOf_of_lookup (show _ from h2)
    omega

/-- Parse error taxonomy (errors.py): UnexpectedTokenError (expected
alternatives, found token kind and lexeme, location), the parenthesis,
operand and end-of-input specializations, and a wrapper for a lexical
error propagated by parse(); the source text carried for display is
omitted. The extra `fuel` constructor is an artifact of the fuel-based
embedding of the recursive parser and is unreachable for the fuel chosen
by `parse` (every parse step either consumes a token or moves to a
strictly higher-precedence rule). -/
inductive ParseErr where
  | unexpectedToken (expected : List String) (found : TokenType × String)
      (location : SourceLocation)
  | missingParen (kind : String) (location : SourceLocation)
  | missingOperand (operator : String) (location : SourceLocation)
  | endOfInput (expected : String) (location : SourceLocation)
  | lexical (err : LexicalError)
  | fuel
deriving DecidableEq, Repr

/-- Parser state (parser.py, Parser dataclass): the token sequence and the
cursor; the source text field only feeds error display and is omitted. -/
structure Parser where
  tokens : List Token
  current : Nat
deriving Repr

/-- Fallback token for indexing an empty token list; unreachable because
tokenize always yields at least the EOF token. -/
def dummyToken : Token := ⟨.EOF, "", ⟨1, 1, 0⟩⟩

/-- Parser._peek (parser.py): the token k positions ahead, clamped to the
last token (always EOF in a tokenize result) past the end. -/
def pPeek (p : Parser) (k : Nat := 0) : Token :=
  let pos := p.current + k
  if pos ≥ p.tokens.length then p.tokens.getLastD dummyToken
  else p.tokens.getD pos dummyToken

/-- Parser._is_at_end (parser.py): the current token is EOF. -/
def pIsAtEnd (p : Parser) : Bool := (pPeek p).type = .EOF

/-- Parser._check (parser.py): current token has the given type (false at
end of input). -/
def pCheck (tt : TokenType) (p : Parser) : Bool :=
  if pIsAtEnd p then false else (pPeek p).type = tt

/-- Parser._advance (parser.py): step the cursor unless at end and return
the token just consumed. All call sites advance only after a successful
check, so the cursor is positive when the returned index is read. -/
def pAdvance (p : Parser) : Token × Parser :=
  let p' := if pIsAtEnd p then p else { p with current := p.current + 1 }
  (p'.tokens.getD (p'.current - 1) dummyToken, p')

/-- Parser._match for a single token type (parser.py; the source's varargs
version is only ever called with one type): advance on a type match. -/
def pMatch (tt : TokenType) (p : Parser) : Bool × Parser :=
  if pCheck tt p then (true, (pAdvance p).2) else (false, p)

/-- Parser._consume (parser.py): require a token of the given type, else
fail with UnexpectedTokenError naming the expected alternative. -/
def pConsume (tt : TokenType) (expected : String) (p : Parser) :
    Except ParseErr (Token × Parser) :=
  if pCheck tt p then .ok (pAdvance p)
  else
    let token := pPeek p
    .error (.unexpectedToken [expected] (token.type, token.lexeme) token.location)

mutual

/-- Parser.parse_or (parser.py): `and ( OR and )*`, left-associative. -/
def parseOr : Nat → Parser → Except ParseErr (Expr × Parser)
  | 0, _ => .error .fuel
  | n + 1, p => do
    let (expr, p) ← parseAnd n p
    parseOrLoop n expr p

/-- The `while self._match(OR)` loop of Parser.parse_or (parser.py). -/
def parseOrLoop : Nat → Expr → Parser → Except ParseErr (Expr × Parser)
  | 0, _, _ => .error .fuel
  | n + 1, expr, p =>
    let (m, p) := pMatch .OR p
    if m then do
      let (right, p) ← parseAnd n p
      parseOrLoop n (.Or expr right) p
    else .ok (expr, p)

/-- Parser.parse_and (parser.py): `not ( AND not )*`, left-associative. -/
def parseAnd : Nat → Parser → Except ParseErr (Expr × Parser)
  | 0, _ => .error .fuel
  | n + 1, p => do
    let (expr, p) ← parseNot n p
    parseAndLoop n expr p

/-- The `while self._match(AND)` loop of Parser.parse_and (parser.py). -/
def parseAndLoop : Nat → Expr → Parser → Except ParseErr (Expr × Parser)
  | 0, _, _ => .error .fuel
  | n + 1, expr, p =>
    let (m, p) := pMatch .AND p
    if m then do
      let (right, p) ← parseNot n p
      parseAndLoop n (.And expr right) p
    else .ok (expr, p)

/-- Parser.parse_not (parser.py): `NOT not | primary`, right-associative
through the recursive self-call. -/
def parseNot : Nat → Parser → Except ParseErr (Expr × Parser)
  | 0, _ => .error .fuel
  | n + 1, p =>
    let (m, p) := pMatch .NOT p
    if m then do
      let (operand, p) ← parseNot n p
      .ok (.Not operand, p)
    else parsePrimary n p

/-- Parser.parse_primary (parser.py): identifier, boolean literal, or a
parenthesized expression whose missing right parenthesis is re-classified
from UnexpectedTokenError into MissingParenthesisError (kind "fermante");
anything else is an end-of-input error when the stream is exhausted and an
UnexpectedTokenError naming the three alternatives otherwise. -/
def parsePrimary : Nat → Parser → Except ParseErr (Expr × Parser)
  | 0, _ => .error .fuel
  | n + 1, p =>
    let token := pPeek p
    let (mB, p) := pMatch .BOOL p
    if mB then .ok (.BoolLit (strUpper token.lexeme = "TRUE"), p)
    else
      let (mI, p) := pMatch .IDENT p
      if mI then .ok (.Var token.lexeme, p)
      else
        let (mL, p) := pMatch .LPAREN p
        if mL then do
          let (expr, p) ← parseOr n p
          match pConsume .RPAREN "parenthèse fermante ')'" p with
          | .ok (_, p) => .ok (expr, p)
          | .error (.unexpectedToken _ _ loc) => .error (.missingParen "fermante" loc)
          | .error e => .error e
        else if pIsAtEnd p then
          .error (.endOfInput "identifiant, booléen, ou parenthèse ouvrante"
            (pPeek p).location)
        else
          .error (.unexpectedToken
            ["identifiant", "booléen (TRUE/FALSE)", "parenthèse ouvrante ('(')"]
            (token.type, token.lexeme) token.location)

end

/-- Parser.parse_expression (parser.py): the top-level `or` production
followed by the trailing-input check. -/
def parseExpression (fuel : Nat) (p : Parser) : Except ParseErr (Expr × Parser) := do
  let (expr, p) ← parseOr fuel p
  if pIsAtEnd p then .ok (expr, p)
  else
    let token := pPeek p
    .error (.unexpectedToken ["fin d'expression"] (token.type, token.lexeme)
      token.location)

/-- parse (parser.py): tokenize then parse; a lexical failure propagates.
The fuel bound covers the four-rule precedence chain per consumed token. -/
def parse (source : String) : Except ParseErr Expr :=
  match tokenize source with
  | .error e => .error (.lexical e)
  | .ok tokens =>
    match parseExpression (4 * (tokens.length + 1)) ⟨tokens, 0⟩ with
    | .ok (expr, _) => .ok expr
    | .error e => .error e

/-- Normal form established by the optimizer: none of the patterns
Not(BoolLit _), Not(Not _), And/Or with a BoolLit child occurs. -/
def isOptNF : Expr → Bool
  | .Var _ => true
  | .BoolLit _ => true
  | .Not e => isOptNF e && !e.isBoolLit && !e.isNot
  | .And l r => isOptNF l && isOptNF r && !l.isBoolLit && !r.isBoolLit
  | .Or l r => isOptNF l && isOptNF r && !l.isBoolLit && !r.isBoolLit

/-- No BoolLit node anywhere in the tree. -/
def boolLitFree : Expr → Bool
  | .Var _ => true
  | .BoolLit _ => false
  | .Not e => boolLitFree e
  | .And l r => boolLitFree l && boolLitFree r
  | .Or l r => boolLitFree l && boolLitFree r

/-- The optimizer's output is in normal form. -/
theorem optimize_isOptNF (e : Expr) : isOptNF (optimize e) = true := by
  induction e with
  | Var n => rfl
  | BoolLit v => rfl
  | Not e ih =>
    simp only [optimize]
    rcases h : optimize e with n | (_ | _) | x | ⟨a, b⟩ | ⟨a, b⟩ <;> rw [h] at ih <;>
      first
        | rfl
        | simp_all [isOptNF, Expr.isBoolLit, Expr.isNot]
  | And l r ihl ihr =>
    simp only [optimize]
    rcases hl : optimize l with n | (_ | _) | x | ⟨a, b⟩ | ⟨a, b⟩ <;> rw [hl] at ihl <;>
      rcases hr : optimize r with m | (_ | _) | y | ⟨c, d⟩ | ⟨c, d⟩ <;> rw [hr] at ihr <;>
      first
        | rfl
        | exact ihl
        | exact ihr
        | simp_all [isOptNF, Expr.isBoolLit, Expr.isNot]
  | Or l r ihl ihr =>
    simp only [optimize]
    rcases hl : optimize l with n | (_ | _) | x | ⟨a, b⟩ | ⟨a, b⟩ <;> rw [hl] at ihl <;>
      rcases hr : optimize r with m | (_ | _) | y | ⟨c, d⟩ | ⟨c, d⟩ <;> rw [hr] at ihr <;>
      first
        | rfl
        | exact ihl
        | exact ihr
        | simp_all [isOptNF, Expr.isBoolLit, Expr.isNot]

/-- Trees already in normal form are fixed points of the optimizer. -/
theorem optimize_of_isOptNF : ∀ e : Expr, isOptNF e = true → optimize e = e := by
  intro e
  induction e with
  | Var n => intro _; rfl
  | BoolLit v => intro _; rfl
  | Not e ih =>
    intro h
    simp only [isOptNF, Bool.and_eq_true, Bool.not_eq_true'] at h
    obtain ⟨⟨h1, h2⟩, h3⟩ := h
    simp only [optimize, ih h1]
    rcases e with n | v | x | ⟨a, b⟩ | ⟨a, b⟩
    · rfl
    · simp [Expr.isBoolLit] at h2
    · simp [Expr.isNot] at h3
    · rfl
    · rfl
  | And l r ihl ihr =>
    intro h
    simp only [isOptNF, Bool.and_eq_true, Bool.not_eq_true'] at h
    obtain ⟨⟨⟨h1, h2⟩, h3⟩, h4⟩ := h
    simp only [optimize, ihl h1, ihr h2]
    rcases l with n | v | x | ⟨a, b⟩ | ⟨a, b⟩ <;> rcases r with m | w | y | ⟨c, d⟩ | ⟨c, d⟩ <;>
      first
        | rfl
        | simp [Expr.isBoolLit] at h3 h4
  | Or l r ihl ihr =>
    intro h
    simp only [isOptNF, Bool.and_eq_true, Bool.not_eq_true'] at h
    obtain ⟨⟨⟨h1, h2⟩, h3⟩, h4⟩ := h
    simp only [optimize, ihl h1, ihr h2]
    rcases l with n | v | x | ⟨a, b⟩ | ⟨a, b⟩ <;> rcases r with m | w | y | ⟨c, d⟩ | ⟨c, d⟩ <;>
      first
        | rfl
        | simp [Expr.isBoolLit] at h3 h4

/-- Normal-form trees other than a bare literal contain no BoolLit at all. -/
theorem nf_boolLitFree : ∀ e : Expr, isOptNF e = true → e.isBoolLit = false →
    boolLitFree e = true := by
  intro e
  induction e with
  | Var n => intro _ _; rfl
  | BoolLit v => intro _ h; simp [Expr.isBoolLit] at h
  | Not e ih =>
    intro h _
    simp only [isOptNF, Bool.and_eq_true, Bool.not_eq_true'] at h
    obtain ⟨⟨h1, h2⟩, h3⟩ := h
    simpa [boolLitFree] using ih h1 h2
  | And l r ihl ihr =>
    intro h _
    simp only [isOptNF, Bool.and_eq_true, Bool.not_eq_true'] at h
    obtain ⟨⟨⟨h1, h2⟩, h3⟩, h4⟩ := h
    simp [boolLitFree, ihl h1 h3, ihr h2 h4]
  | Or l r ihl ihr =>
    intro h _
    simp only [isOptNF, Bool.and_eq_true, Bool.not_eq_true'] at h
    obtain ⟨⟨⟨h1, h2⟩, h3⟩, h4⟩ := h
    simp [boolLitFree, ihl h1 h3, ihr h2 h4]

/-- C2: optimize is idempotent: optimizing an already optimized expression
returns it unchanged (structural equality). -/
theorem optimize_idempotent (e : Expr) : optimize (optimize e) = optimize e :=
  optimize_of_isOptNF (optimize e) (optimize_isOptNF e)

/-- C10: the optimizer's result never contains Not(BoolLit _), Not(Not _),
And/Or with a BoolLit child; a BoolLit can only be the entire result, never
a child of a composite node. -/
theorem optimize_normal_form (e : Expr) :
    isOptNF (optimize e) = true ∧
    ((∃ b, optimize e = .BoolLit b) ∨ boolLitFree (optimize e) = true) := by
  refine ⟨optimize_isOptNF e, ?_⟩
  have hnf := optimize_isOptNF e
  rcases he : optimize e with n | v | x | ⟨a, b⟩ | ⟨a, b⟩ <;> rw [he] at hnf
  · exact Or.inr rfl
  · exact Or.inl ⟨v, rfl⟩
  · exact Or.inr (nf_boolLitFree _ hnf rfl)
  · exact Or.inr (nf_boolLitFree _ hnf rfl)
  · exact Or.inr (nf_boolLitFree _ hnf rfl)

/-- Successful evaluation of a negation decomposes into successful
evaluation of the operand. -/
theorem eval_not_ok {e : Expr} {env : Env} {b : Bool} :
    evaluate (.Not e) env = .ok b ↔ ∃ v, evaluate e env = .ok v ∧ b = !v := by
  rcases hv : evaluate e env with er | v <;>
    simp [evaluate, hv, Except.bind, pure, Except.pure, eq_comm]

/-- Successful evaluation of a conjunction decomposes into successful
evaluation of both operands. -/
theorem eval_and_ok {l r : Expr} {env : Env} {b : Bool} :
    evaluate (.And l r) env = .ok b ↔
      ∃ vl vr, evaluate l env = .ok vl ∧ evaluate r env = .ok vr ∧ b = (vl && vr) := by
  rcases hl : evaluate l env with er | vl <;>
    rcases hr : evaluate r env with er' | vr <;>
    simp [evaluate, hl, hr, Except.bind, pure, Except.pure, eq_comm]

/-- Successful evaluation of a disjunction decomposes into successful
evaluation of both operands. -/
theorem eval_or_ok {l r : Expr} {env : Env} {b : Bool} :
    evaluate (.Or l r) env = .ok b ↔
      ∃ vl vr, evaluate l env = .ok vl ∧ evaluate r env = .ok vr ∧ b = (vl || vr) := by
  rcases hl : evaluate l env with er | vl <;>
    rcases hr : evaluate r env with er' | vr <;>
    simp [evaluate, hl, hr, Except.bind, pure, Except.pure, eq_comm]

/-- Evaluation succeeds whenever every free variable is bound. -/
theorem evaluate_total : ∀ (e : Expr) (env : Env),
    (∀ x ∈ freeVars e, (env.lookup x).isSome = true) →
    ∃ b, evaluate e env = .ok b := by
  intro e env
  induction e with
  | Var n =>
    intro h
    have h1 := h n (by simp [freeVars])
    rcases hl : env.lookup n with _ | v
    · rw [hl] at h1; simp at h1
    · exact ⟨v, by simp [evaluate, hl]⟩
  | BoolLit v => intro _; exact ⟨v, rfl⟩
  | Not e ih =>
    intro h
    obtain ⟨b, hb⟩ := ih (fun x hx => h x (by simpa [freeVars] using hx))
    exact ⟨!b, eval_not_ok.mpr ⟨b, hb, rfl⟩⟩
  | And l r ihl ihr =>
    intro h
    obtain ⟨bl, hbl⟩ := ihl (fun x hx => h x (by simp [freeVars, hx]))
    obtain ⟨br, hbr⟩ := ihr (fun x hx => h x (by simp [freeVars, hx]))
    exact ⟨bl && br, eval_and_ok.mpr ⟨bl, br, hbl, hbr, rfl⟩⟩
  | Or l r ihl ihr =>
    intro h
    obtain ⟨bl, hbl⟩ := ihl (fun x hx => h x (by simp [freeVars, hx]))
    obtain ⟨br, hbr⟩ := ihr (fun x hx => h x (by simp [freeVars, hx]))
    exact ⟨bl || br, eval_or_ok.mpr ⟨bl, br, hbl, hbr, rfl⟩⟩

/-- Optimization preserves any successful evaluation result. -/
theorem evaluate_optimize : ∀ (e : Expr) (env : Env) (b : Bool),
    evaluate e env = .ok b → evaluate (optimize e) env = .ok b := by
  intro e env
  induction e with
  | Var n => intro b h; exact h
  | BoolLit v => intro b h; exact h
  | Not e ih =>
    intro b h
    obtain ⟨v, hv, rfl⟩ := eval_not_ok.mp h
    have hv' := ih v hv
    simp only [optimize]
    rcases ho : optimize e with n | (_ | _) | x | ⟨a, c⟩ | ⟨a, c⟩ <;> rw [ho] at hv'
    · exact eval_not_ok.mpr ⟨v, hv', rfl⟩
    · simp [evaluate] at hv'; simp [evaluate, ← hv']
    · simp [evaluate] at hv'; simp [evaluate, ← hv']
    · obtain ⟨w, hw, hvw⟩ := eval_not_ok.mp hv'
      rw [hvw, Bool.not_not]
      exact hw
    · exact eval_not_ok.mpr ⟨v, hv', rfl⟩
    · exact eval_not_ok.mpr ⟨v, hv', rfl⟩
  | And l r ihl ihr =>
    intro b h
    obtain ⟨vl, vr, hvl, hvr, rfl⟩ := eval_and_ok.mp h
    have hl' := ihl vl hvl
    have hr' := ihr vr hvr
    simp only [optimize]
    rcases ho : optimize l with n | (_ | _) | x | ⟨a, c⟩ | ⟨a, c⟩ <;> rw [ho] at hl' <;>
      rcases hp : optimize r with m | (_ | _) | y | ⟨d, f⟩ | ⟨d, f⟩ <;> rw [hp] at hr' <;>
      first
        | exact eval_and_ok.mpr ⟨vl, vr, hl', hr', rfl⟩
        | simp_all [evaluate]
  | Or l r ihl ihr =>
    intro b h
    obtain ⟨vl, vr, hvl, hvr, rfl⟩ := eval_or_ok.mp h
    have hl' := ihl vl hvl
    have hr' := ihr vr hvr
    simp only [optimize]
    rcases ho : optimize l with n | (_ | _) | x | ⟨a, c⟩ | ⟨a, c⟩ <;> rw [ho] at hl' <;>
      rcases hp : optimize r with m | (_ | _) | y | ⟨d, f⟩ | ⟨d, f⟩ <;> rw [hp] at hr' <;>
      first
        | exact eval_or_ok.mpr ⟨vl, vr, hl', hr', rfl⟩
        | simp_all [evaluate]

/-- C1: optimizer soundness: for every expression and every environment
binding all its free variables, evaluation succeeds and optimization
preserves the resulting boolean. -/
theorem optimizer_soundness (e : Expr) (env : Env)
    (h : ∀ x ∈ freeVars e, (env.lookup x).isSome = true) :
    ∃ b, evaluate e env = .ok b ∧ evaluate (optimize e) env = .ok b := by
  obtain ⟨b, hb⟩ := evaluate_total e env h
  exact ⟨b, hb, evaluate_optimize e env b hb⟩

/-- Witness for C1 at a concrete expression and environment. -/
theorem optimizer_soundness_witness :
    (∀ x ∈ freeVars (Expr.And (Expr.Var "A") (Expr.Not (Expr.BoolLit true))),
      (([("A", true)] : Env).lookup x).isSome = true) ∧
    ∃ b,
      evaluate (Expr.And (Expr.Var "A") (Expr.Not (Expr.BoolLit true))) [("A", true)]
        = .ok b ∧
      evaluate (optimize (Expr.And (Expr.Var "A") (Expr.Not (Expr.BoolLit true))))
        [("A", true)] = .ok b :=
  ⟨by decide, optimizer_soundness _ _ (by decide)⟩

/-- C3: JSON round-trip: deserializing the serialization of any expression
succeeds and returns a structurally equal expression. -/
theorem json_round_trip (e : Expr) : from_json (to_json e) = some e := by
  induction e with
  | Var n => simp [to_json, from_json, getField, List.lookup]
  | BoolLit v => simp [to_json, from_json, getField, List.lookup]
  | Not e ih => simp [to_json, from_json, getField, List.lookup, ih]
  | And l r ihl ihr => simp [to_json, from_json, getField, List.lookup, ihl, ihr]
  | Or l r ihl ihr => simp [to_json, from_json, getField, List.lookup, ihl, ihr]

/-- C7: non-short-circuiting evaluation: And and Or evaluate both operands,
so a failure in the right operand propagates even when the left operand
already determines the boolean result. -/
theorem nonshortcircuit_eval :
    (∀ (l r : Expr) (env : Env) (b : Bool) (er : UnknownVariableError),
      evaluate l env = .ok b → evaluate r env = .error er →
      evaluate (.And l r) env = .error er) ∧
    (∀ (l r : Expr) (env : Env) (b : Bool) (er : UnknownVariableError),
      evaluate l env = .ok b → evaluate r env = .error er →
      evaluate (.Or l r) env = .error er) := by
  constructor <;> intro l r env b er hl hr <;> simp [evaluate, hl, hr]

/-- Witness for C7: And with a false left operand and Or with a true left
operand still fail on an unknown variable on the right. -/
theorem nonshortcircuit_eval_witness :
    evaluate (Expr.BoolLit false) ([] : Env) = .ok false ∧
    evaluate (Expr.Var "X") ([] : Env) = .error ⟨"X", []⟩ ∧
    evaluate (Expr.And (Expr.BoolLit false) (Expr.Var "X")) ([] : Env)
      = .error ⟨"X", []⟩ ∧
    evaluate (Expr.BoolLit true) ([] : Env) = .ok true ∧
    evaluate (Expr.Or (Expr.BoolLit true) (Expr.Var "X")) ([] : Env)
      = .error ⟨"X", []⟩ :=
  ⟨by decide, by decide,
   nonshortcircuit_eval.1 _ _ _ false ⟨"X", []⟩ (by decide) (by decide),
   by decide,
   nonshortcircuit_eval.2 _ _ _ true ⟨"X", []⟩ (by decide) (by decide)⟩

/-- C4: precedence and associativity: NOT binds tighter than AND, which
binds tighter than OR, on the spec's example input. -/
theorem parse_precedence :
    parse "A OR B AND NOT C"
      = .ok (.Or (.Var "A") (.And (.Var "B") (.Not (.Var "C")))) := by decide

/-- C5 counterexample: parsing "(A AND B" does fail with a
MissingParenthesisError, but its kind field is the code's French string
"fermante", not "closing" as the claim states. -/
theorem missing_paren_kind_counterexample :
    parse "(A AND B" = .error (.missingParen "fermante" ⟨1, 9, 8⟩) ∧
    "fermante" ≠ "closing" := by decide

/-- C5 amended: parse "(A AND B" fails with MissingParenthesisError whose
kind field equals "fermante" (the code's French for closing), i.e. the
right-paren failure while closing a group is re-classified from
UnexpectedTokenError into MissingParenthesisError. -/
theorem missing_paren_kind_amended :
    parse "(A AND B" = .error (.missingParen "fermante" ⟨1, 9, 8⟩) := by decide

/-- Totality of the lexicographic character-list comparison. -/
theorem charListLe_total : ∀ x y : List Char,
    charListLe x y = true ∨ charListLe y x = true := by
  intro x
  induction x with
  | nil => intro y; left; rfl
  | cons a as ih =>
    intro y
    rcases y with _ | ⟨b, bs⟩
    · right; rfl
    · simp only [charListLe]
      by_cases hab : a = b
      · subst hab
        simpa using ih bs
      · have hba : ¬b = a := fun h => hab h.symm
        simp only [if_neg hab, if_neg hba, decide_eq_true_eq]
        rcases lt_trichotomy a b with h | h | h
        · exact Or.inl h
        · exact absurd h hab
        · exact Or.inr h

/-- Transitivity of the lexicographic character-list comparison. -/
theorem charListLe_trans : ∀ x y z : List Char,
    charListLe x y = true → charListLe y z = true → charListLe x z = true := by
  intro x
  induction x with
  | nil => intro y z _ _; rfl
  | cons a as ih =>
    intro y z hxy hyz
    rcases y with _ | ⟨b, bs⟩
    · simp [charListLe] at hxy
    · rcases z with _ | ⟨c, cs⟩
      · simp [charListLe] at hyz
      · simp only [charListLe] at hxy hyz ⊢
        by_cases hab : a = b <;> by_cases hbc : b = c
        · subst hab; subst hbc
          simp only [if_pos rfl] at hxy hyz ⊢
          exact ih bs cs hxy hyz
        · subst hab
          simp only [if_pos rfl] at hxy
          simp only [if_neg hbc] at hyz ⊢
          exact hyz
        · subst hbc
          simp only [if_pos rfl] at hyz
          simp only [if_neg hab] at hxy ⊢
          exact hxy
        · simp only [if_neg hab, decide_eq_true_eq] at hxy
          simp only [if_neg hbc, decide_eq_true_eq] at hyz
          have hac : a < c := lt_trans hxy hyz
          have hne : ¬a = c := ne_of_lt hac
          simp [if_neg hne, hac]

instance : IsTotal (Nat × String) pairLeR := by
  constructor
  intro a b
  simp only [pairLeR, pairLe, Bool.or_eq_true, Bool.and_eq_true, decide_eq_true_eq]
  rcases lt_trichotomy a.1 b.1 with h | h | h
  · exact Or.inl (Or.inl h)
  · rcases charListLe_total a.2.data b.2.data with hc | hc
    · exact Or.inl (Or.inr ⟨by simpa using h, hc⟩)
    · exact Or.inr (Or.inr ⟨by simpa using h.symm, hc⟩)
  · exact Or.inr (Or.inl h)

instance : IsTrans (Nat × String) pairLeR := by
  constructor
  intro a b c hab hbc
  simp only [pairLeR, pairLe, Bool.or_eq_true, Bool.and_eq_true, decide_eq_true_eq] at hab hbc ⊢
  rcases hab with h1 | ⟨h1, hc1⟩ <;> rcases hbc with h2 | ⟨h2, hc2⟩
  · exact Or.inl (lt_trans h1 h2)
  · exact Or.inl (by omega)
  · exact Or.inl (by omega)
  · exact Or.inr ⟨by omega, charListLe_trans _ _ _ hc1 hc2⟩

/-- Filtering a mapped list is mapping the filtered list. -/
theorem filterMapComm {α β : Type} (f : α → β) (p : β → Bool) :
    ∀ l : List α, (l.map f).filter p = (l.filter (fun a => p (f a))).map f := by
  intro l
  induction l with
  | nil => rfl
  | cons a t ih =>
    by_cases h : p (f a) = true <;> simp [List.filter_cons, h, ih]

/-- C6: an unknown variable fails with an UnknownVariableError whose
suggestion list consists exactly of the environment keys at case-insensitive
Levenshtein distance at most 3 from the missing name, sorted ascending by
(distance, name); and concretely, evaluating UNKNON in an environment with
UNKNOWN suggests UNKNOWN. -/
theorem unknown_variable_suggestions :
    (∀ (env : Env) (name : String), env.lookup name = none →
      evaluate (.Var name) env
        = .error ⟨name, find_similar_variables name (env.map Prod.fst)⟩ ∧
      ∃ pairs : List (Nat × String),
        pairs.Perm (((env.map Prod.fst).filter
            (fun k => levenshtein_distance (strLower name) (strLower k) ≤ 3)).map
            (fun k => (levenshtein_distance (strLower name) (strLower k), k))) ∧
        List.Sorted pairLeR pairs ∧
        find_similar_variables name (env.map Prod.fst) = pairs.map Prod.snd) ∧
    (parse "UNKNON" = .ok (.Var "UNKNON") ∧
      evaluate (.Var "UNKNON") [("UNKNOWN", true), ("OTHER", false)]
        = .error ⟨"UNKNON", ["UNKNOWN"]⟩ ∧
      "UNKNOWN" ∈ ["UNKNOWN"]) := by
  constructor
  · intro env name hnone
    constructor
    · simp [evaluate, hnone]
    · have h2 : (((env.map Prod.fst).map
            (fun v => (levenshtein_distance (strLower name) (strLower v), v))).filter
            (fun p => p.1 ≤ 3))
          = (((env.map Prod.fst).filter
            (fun k => levenshtein_distance (strLower name) (strLower k) ≤ 3)).map
            (fun k => (levenshtein_distance (strLower name) (strLower k), k))) := by
        rw [filterMapComm]
      refine ⟨List.insertionSort pairLeR
        (((env.map Prod.fst).filter
          (fun k => levenshtein_distance (strLower name) (strLower k) ≤ 3)).map
          (fun k => (levenshtein_distance (strLower name) (strLower k), k))), ?_, ?_, ?_⟩
      · exact List.perm_insertionSort pairLeR _
      · exact List.sorted_insertionSort pairLeR _
      · simp only [find_similar_variables]
        rw [h2]
  · exact ⟨by decide, by decide, by decide⟩

/-- C8: from_json fails (returns none, the embedding of the source's
ValueError and KeyError) on an unrecognized type tag, and on a recognized
tag with its required field missing. -/
theorem from_json_failures :
    (∀ fields : List (String × Json),
      (∀ t ∈ ["Var", "BoolLit", "Not", "And", "Or"],
        getField fields "type" ≠ some (.str t)) →
      from_json (.obj fields) = none) ∧
    (∀ fields : List (String × Json), getField fields "type" = some (.str "Var") →
      getField fields "name" = none → from_json (.obj fields) = none) ∧
    (∀ fields : List (String × Json), getField fields "type" = some (.str "BoolLit") →
      getField fields "value" = none → from_json (.obj fields) = none) ∧
    (∀ fields : List (String × Json), getField fields "type" = some (.str "Not") →
      getField fields "expr" = none → from_json (.obj fields) = none) ∧
    (∀ fields : List (String × Json), getField fields "type" = some (.str "And") →
      getField fields "left" = none ∨ getField fields "right" = none →
      from_json (.obj fields) = none) ∧
    (∀ fields : List (String × Json), getField fields "type" = some (.str "Or") →
      getField fields "left" = none ∨ getField fields "right" = none →
      from_json (.obj fields) = none) := by
  refine ⟨?_, ?_, ?_, ?_, ?_, ?_⟩
  · intro fields h
    simp only [from_json]
    split
    · exact absurd (by assumption) (h "Var" (by simp))
    · exact absurd (by assumption) (h "BoolLit" (by simp))
    · exact absurd (by assumption) (h "Not" (by simp))
    · exact absurd (by assumption) (h "And" (by simp))
    · exact absurd (by assumption) (h "Or" (by simp))
    · rfl
  · intro fields h1 h2
    simp [from_json, h1, h2]
  · intro fields h1 h2
    simp [from_json, h1, h2]
  · intro fields h1 h2
    simp only [from_json, h1]
    split
    · rename_i j hj
      rw [h2] at hj
      simp at hj
    · rfl
  · intro fields h1 h2
    simp only [from_json, h1]
    split
    · rename_i jl jr hjl hjr
      rcases h2 with h2 | h2
      · rw [h2] at hjl; simp at hjl
      · rw [h2] at hjr; simp at hjr
    · rfl
  · intro fields h1 h2
    simp only [from_json, h1]
    split
    · rename_i jl jr hjl hjr
      rcases h2 with h2 | h2
      · rw [h2] at hjl; simp at hjl
      · rw [h2] at hjr; simp at hjr
    · rfl

/-- Witness for C8: an object with an unrecognized tag and an object with a
recognized tag but a missing required field both decode to none. -/
theorem from_json_failures_witness :
    (∀ t ∈ ["Var", "BoolLit", "Not", "And", "Or"],
      getField [("type", Json.str "Mystery")] "type" ≠ some (.str t)) ∧
    from_json (.obj [("type", Json.str "Mystery")]) = none ∧
    getField [("type", Json.str "Var")] "type" = some (.str "Var") ∧
    getField [("type", Json.str "Var")] "name" = none ∧
    from_json (.obj [("type", Json.str "Var")]) = none := by
  refine ⟨?_, ?_, ?_, ?_, ?_⟩
  · intro t ht
    fin_cases ht <;> simp [getField, List.lookup]
  · exact from_json_failures.1 _ (by intro t ht; fin_cases ht <;> simp [getField, List.lookup])
  · simp [getField, List.lookup]
  · simp [getField, List.lookup]
  · exact from_json_failures.2.1 _ (by simp [getField, List.lookup])
      (by simp [getField, List.lookup])

/-- The whitespace-and-comment skipper never grows the remaining input. -/
theorem skipWsC_length (ec : Bool) :
    ∀ (rem : List Char) (m : Bool) (lc : SourceLocation),
      (skipWsC ec m rem lc).1.length ≤ rem.length := by
  intro rem
  induction rem with
  | nil => intro m lc; simp [skipWsC]
  | cons c rest ih =>
    intro m lc
    simp only [skipWsC]
    split
    · split
      · exact (ih _ _).trans (Nat.le_succ _)
      · exact (ih _ _).trans (Nat.le_succ _)
    · split
      · exact (ih _ _).trans (Nat.le_succ _)
      · split
        · exact (ih _ _).trans (Nat.le_succ _)
        · simp

/-- Dropping a prefix never grows a list. -/
theorem dropWhile_length_le (p : Char → Bool) :
    ∀ l : List Char, (l.dropWhile p).length ≤ l.length := by
  intro l
  induction l with
  | nil => simp
  | cons c rest ih =>
    simp only [List.dropWhile]
    split
    · exact ih.trans (Nat.le_succ _)
    · simp

/-- Reading a non-EOF token strictly consumes input. -/
theorem readToken_ok_length (ec : Bool) (rem : List Char) (lc : SourceLocation)
    {tok : Token} {rem' : List Char} {lc' : SourceLocation}
    (h : readToken ec rem lc = .ok (tok, rem', lc')) (ht : tok.type ≠ .EOF) :
    rem'.length < rem.length := by
  have hsk := skipWsC_length ec rem false lc
  rcases hs : skipWsC ec false rem lc with ⟨rem0, lc0⟩
  rw [hs] at hsk
  rcases rem0 with _ | ⟨c, rest⟩ <;> simp only [readToken, hs] at h
  · simp at h
    exact absurd (congrArg Token.type h.1).symm ht
  · simp only [List.length_cons] at hsk
    split at h
    · simp at h
      obtain ⟨-, h2, -⟩ := h
      subst h2
      omega
    · split at h
      · simp at h
        obtain ⟨-, h2, -⟩ := h
        subst h2
        omega
      · split at h
        · split at h <;>
            (simp at h
             obtain ⟨-, h2, -⟩ := h
             subst h2
             have := dropWhile_length_le isIdentCont rest
             omega)
        · simp at h

/-- Past the number of remaining characters, the tokenize loop's fuel is
irrelevant: the chosen fuel of tokenize is sufficient, so the sentinel
fuel-exhaustion error is unreachable. -/
theorem tokenizeLoop_fuel_irrelevant (ec : Bool) :
    ∀ (f g : Nat) (rem : List Char) (lc : SourceLocation),
      rem.length < f → rem.length < g →
      tokenizeLoop ec f rem lc = tokenizeLoop ec g rem lc := by
  intro f
  induction f with
  | zero => intro g rem lc hf; exact absurd hf (Nat.not_lt_zero _)
  | succ n ih =>
    intro g rem lc hf hg
    rcases g with _ | m
    · exact absurd hg (Nat.not_lt_zero _)
    · simp only [tokenizeLoop]
      rcases hr : readToken ec rem lc with e | ⟨tok, rem', lc'⟩
      · rfl
      · simp only [hr]
        by_cases ht : tok.type = .EOF
        · simp [ht]
        · simp only [if_neg ht]
          have hlt := readToken_ok_length ec rem lc hr ht
          rw [ih m rem' lc' (by omega) (by omega)]

/-- Every successful tokenize-loop result ends in exactly one EOF token. -/
theorem tokenizeLoop_ok_structure (ec : Bool) :
    ∀ (fuel : Nat) (rem : List Char) (lc : SourceLocation) (toks : List Token),
      tokenizeLoop ec fuel rem lc = .ok toks →
      ∃ pre lastTok, toks = pre ++ [lastTok] ∧ lastTok.type = .EOF ∧
        ∀ t ∈ pre, t.type ≠ .EOF := by
  intro fuel
  induction fuel with
  | zero => intro rem lc toks h; simp [tokenizeLoop] at h
  | succ n ih =>
    intro rem lc toks h
    simp only [tokenizeLoop] at h
    rcases hr : readToken ec rem lc with e | ⟨tok, rem', lc'⟩ <;> simp only [hr] at h
    · simp at h
    · by_cases ht : tok.type = .EOF
      · rw [if_pos ht] at h
        simp at h
        subst h
        exact ⟨[], tok, rfl, ht, by simp⟩
      · rw [if_neg ht] at h
        rcases hl : tokenizeLoop ec n rem' lc' with e | toks' <;> simp only [hl] at h
        · simp at h
        · simp at h
          subst h
          obtain ⟨pre, lastTok, hsplit, hlast, hpre⟩ := ih rem' lc' toks' hl
          refine ⟨tok :: pre, lastTok, by simp [hsplit], hlast, ?_⟩
          intro t htm
          rcases List.mem_cons.mp htm with rfl | htm
          · exact ht
          · exact hpre t htm

/-- C9: every successful tokenization is non-empty, ends with an EndOfInput
token, and has no EndOfInput token before the last position; tokenizing the
empty string yields exactly one EOF token with empty lexeme at line 1,
column 1, offset 0. -/
theorem tokenize_eof_terminal :
    (∀ (src : String) (toks : List Token), tokenize src = .ok toks →
      ∃ pre lastTok, toks = pre ++ [lastTok] ∧ lastTok.type = .EOF ∧
        ∀ t ∈ pre, t.type ≠ .EOF) ∧
    tokenize "" = .ok [⟨.EOF, "", ⟨1, 1, 0⟩⟩] := by
  refine ⟨?_, by decide⟩
  intro src toks h
  exact tokenizeLoop_ok_structure true _ _ _ _ h

/-- Witness for C9: instantiation of the EOF-terminal structure at the
tokenization of a concrete source string. -/
theorem tokenize_eof_terminal_witness :
    tokenize "A AND B" = .ok
      [⟨.IDENT, "A", ⟨1, 1, 0⟩⟩, ⟨.AND, "AND", ⟨1, 3, 2⟩⟩, ⟨.IDENT, "B", ⟨1, 7, 6⟩⟩,
       ⟨.EOF, "", ⟨1, 8, 7⟩⟩] ∧
    ∃ pre lastTok,
      ([⟨.IDENT, "A", ⟨1, 1, 0⟩⟩, ⟨.AND, "AND", ⟨1, 3, 2⟩⟩, ⟨.IDENT, "B", ⟨1, 7, 6⟩⟩,
        ⟨.EOF, "", ⟨1, 8, 7⟩⟩] : List Token) = pre ++ [lastTok] ∧
      lastTok.type = .EOF ∧ ∀ t ∈ pre, t.type ≠ .EOF :=
  ⟨by decide, tokenize_eof_terminal.1 "A AND B" _ (by decide)⟩

/-- Witness for C6: instantiation at the missing name UNKNON over the
environment binding UNKNOWN and OTHER. -/
theorem unknown_variable_suggestions_witness :
    (([("UNKNOWN", true), ("OTHER", false)] : Env).lookup "UNKNON" = none) ∧
    (evaluate (.Var "UNKNON") [("UNKNOWN", true), ("OTHER", false)]
        = .error ⟨"UNKNON", find_similar_variables "UNKNON"
            (([("UNKNOWN", true), ("OTHER", false)] : Env).map Prod.fst)⟩ ∧
      ∃ pairs : List (Nat × String),
        pairs.Perm (((([("UNKNOWN", true), ("OTHER", false)] : Env).map Prod.fst).filter
            (fun k => levenshtein_distance (strLower "UNKNON") (strLower k) ≤ 3)).map
            (fun k => (levenshtein_distance (strLower "UNKNON") (strLower k), k))) ∧
        List.Sorted pairLeR pairs ∧
        find_similar_variables "UNKNON"
            (([("UNKNOWN", true), ("OTHER", false)] : Env).map Prod.fst)
          = pairs.map Prod.snd) :=
  ⟨by decide, unknown_variable_suggestions.1 _ "UNKNON" (by decide)⟩
